import Mathlib

/-!
Verification development for the MixAnalyzer backend (Rust).

The embedding models, from `src/backend/src/main.rs` and
`src/backend/src/stem_separation.rs`:
  * the job state machines (`JobStatus`, `StemJobStatus`) and the two
    in-memory job stores of `AppState`;
  * the two background pipelines `process_analysis` (pipeline A) and
    `process_stem_separation` (pipeline B), modelled as the sequence of
    store writes they perform, with the outcomes of external collaborators
    (the Python worker processes, the OpenAI call, the SQL inserts)
    abstracted into an environment record;
  * the stderr progress-line parser of `separate_stems_with_progress`;
  * the terminal outcome of `separate_stems_with_progress` as a function of
    the process outcome, with `serde_json::from_str` abstracted as a
    parameter;
  * the progress rescaling arithmetic of pipeline B;
  * the SSE status streams `job_status_stream` / `stem_job_status_stream`,
    modelled as a function from the sequence of store samples (one per poll)
    to the list of emitted events.

Rust `f32` fields appear only as stored literal constants (never computed
with), so they are modelled as `ℚ`.  Rust `HashMap` values that are only
built and carried (never looked up) are modelled as association lists.
Serde serialization of the status enums is modelled concretely (adjacently
tagged, `tag = "status"`, `content = "data"`), with the serialization of the
large metric payloads abstracted as a parameter; `serde_json`'s default
`Map` (a `BTreeMap`, alphabetical key order) is used for the `json!` sentinel
objects.
-/

namespace MixAnalyzer

/-- `AudioMetrics` from `audio_analysis.rs` (f32 fields as ℚ). -/
structure AudioMetrics where
  integrated_lufs : ℚ
  loudness_range : ℚ
  true_peak : ℚ
  dynamic_complexity : ℚ
  bpm : ℚ
  beat_confidence : ℚ
  danceability : ℚ
  key : String
  scale : String
  tuning_frequency : ℚ
  spectral_centroid : ℚ
  spectral_rolloff : ℚ
  spectral_flux : ℚ
deriving DecidableEq

/-- `ComparisonResult` from `audio_analysis.rs`. -/
structure ComparisonResult where
  mix : AudioMetrics
  reference : AudioMetrics
deriving DecidableEq

/-- `JobStatus` from `main.rs` (pipeline A's state machine). -/
inductive JobStatus where
  | Queued : JobStatus
  | Processing : String → JobStatus
  | Completed : ComparisonResult → String → JobStatus
  | Failed : String → JobStatus
deriving DecidableEq

/-- `StemMetrics` from `main.rs` (f32 fields as ℚ). -/
structure StemMetrics where
  file_path : String
  integrated_lufs : ℚ
  spectral_centroid : ℚ
  spectral_rolloff : ℚ
deriving DecidableEq

/-- `StemAnalysisResult` from `main.rs`; the `HashMap<String, StemMetrics>`
is modelled as an association list. -/
structure StemAnalysisResult where
  stems : List (String × StemMetrics)
deriving DecidableEq

/-- `StemJobStatus` from `main.rs` (pipeline B's state machine). -/
inductive StemJobStatus where
  | Queued : StemJobStatus
  | Separating : Nat → String → StemJobStatus
  | Analyzing : String → StemJobStatus
  | Completed : StemAnalysisResult → StemJobStatus
  | Failed : String → StemJobStatus
deriving DecidableEq

/-- `StemSeparationResult` from `stem_separation.rs`; the stem map is an
association list `stem_name → file_path`. -/
structure StemSeparationResult where
  success : Bool
  stems : Option (List (String × String))
  sample_rate : Option Nat
  error : Option String
deriving DecidableEq

/-- `StemProgress` from `stem_separation.rs`: the `u8` percent (0..=255)
and the stage text. -/
structure StemProgress where
  progress : Nat
  stage : String
deriving DecidableEq

/-- The two shared job stores of `AppState` (`jobs` and `stem_jobs`),
modelled as maps from job identifier to status. -/
structure AppState where
  jobs : String → Option JobStatus
  stem_jobs : String → Option StemJobStatus

/-- `update_job_status` from `main.rs`: insert/overwrite one analysis-job
record. -/
def update_job_status (st : AppState) (job_id : String) (s : JobStatus) : AppState :=
  { st with jobs := fun k => if k = job_id then some s else st.jobs k }

/-- `update_stem_job_status` from `main.rs`: insert/overwrite one stem-job
record. -/
def update_stem_job_status (st : AppState) (job_id : String) (s : StemJobStatus) : AppState :=
  { st with stem_jobs := fun k => if k = job_id then some s else st.stem_jobs k }

/-! ### Progress-line parsing (`separate_stems_with_progress`, stderr thread)

`line.starts_with("PROGRESS:")`, then `line.splitn(3, ':')`, a check that
three parts came out, and `parts[1].parse::<u8>()`. -/

/-- Boolean list-prefix test (models `str::starts_with`). -/
def leadsWith : List Char → List Char → Bool
  | [], _ => true
  | _ :: _, [] => false
  | p :: ps, c :: cs => p = c && leadsWith ps cs

/-- Split a character list at the first occurrence of `sep`: returns the
chunk before it and the remainder after it, or `none` when `sep` is absent. -/
def breakAt (sep : Char) : List Char → Option (List Char × List Char)
  | [] => none
  | c :: cs =>
    if c = sep then some ([], cs)
    else (breakAt sep cs).map (fun p => (c :: p.1, p.2))

/-- Models Rust `str::splitn(3, sep)`: at most three chunks, the last one
keeping any further separators. -/
def splitn3 (sep : Char) (l : List Char) : List (List Char) :=
  match breakAt sep l with
  | none => [l]
  | some (a, r) =>
    match breakAt sep r with
    | none => [a, r]
    | some (b, r2) => [a, b, r2]

/-- Numeric value of a decimal digit list. -/
def digitsToNat (l : List Char) : Nat :=
  l.foldl (fun n c => n * 10 + (c.toNat - ('0').toNat)) 0

/-- Models Rust `str::parse::<u8>()`: an optional single leading `+`, then
one or more ASCII digits, value at most 255 (overflow is an error). -/
def parseU8 (l : List Char) : Option Nat :=
  let body := match l with
    | '+' :: rest => rest
    | _ => l
  if body ≠ [] ∧ body.all (fun c => c.isDigit) then
    if digitsToNat body ≤ 255 then some (digitsToNat body) else none
  else none

/-- The stderr-line handler of `separate_stems_with_progress`: a line
produces a progress event exactly when it starts with `PROGRESS:`, splits
(limit 3) into three parts, and the middle part parses as `u8`. -/
def parseProgressLine (l : List Char) : Option (Nat × List Char) :=
  if leadsWith ("PROGRESS:".data) l then
    match splitn3 ':' l with
    | [_, p1, p2] =>
      match parseU8 p1 with
      | some n => some (n, p2)
      | none => none
    | _ => none
  else none

/-- String-level wrapper for `parseProgressLine`, producing the
`StemProgress` value sent on the channel. -/
def parseProgressLineS (s : String) : Option StemProgress :=
  (parseProgressLine s.data).map (fun p => ⟨p.1, String.mk p.2⟩)

/-- The full relay: the sequence of `StemProgress` events delivered for a
sequence of stderr lines (non-matching lines are skipped). -/
def stderrEvents (lines : List String) : List StemProgress :=
  lines.filterMap parseProgressLineS

/-- The claim's reading of the wire format: the line is literally
`PROGRESS:` followed by the canonical decimal numeral of a percent in
`0..=100`, a colon, and the stage text. -/
def claimProgressForm (l : List Char) (p : Nat) (stage : List Char) : Prop :=
  l = ("PROGRESS:".data) ++ (Nat.repr p).data ++ ':' :: stage ∧ p ≤ 100

/-! ### The external-process runner (`separate_stems_with_progress`) -/

/-- Outcome of running the worker process, as observed by the runner
thread: the spawn may fail, waiting may fail, or the process exits with an
exit code (`none` models death by signal) and captured stdout. -/
inductive ProcOutcome where
  | launchFailure : String → ProcOutcome
  | waitFailure : String → ProcOutcome
  | exited : Option Int → String → ProcOutcome

/-- `ExitStatus::success()`: exit code zero. -/
def statusSuccess : Option Int → Bool :=
  fun c => c = some 0

/-- Rust `{:?}` rendering of `Option<i32>` (used in the exit-code failure
message). -/
def rustDebugOptInt : Option Int → String
  | some n => "Some(" ++ toString n ++ ")"
  | none => "None"

/-- The terminal outcome computed by the thread body of
`separate_stems_with_progress`, with `serde_json::from_str` abstracted as
`parseEnvelope` (returning either the parsed envelope or serde's error
text). -/
def separate_stems_terminal (parseEnvelope : String → Except String StemSeparationResult) :
    ProcOutcome → Except String StemSeparationResult
  | .launchFailure e => .error ("Failed to execute python script: " ++ e)
  | .waitFailure e => .error ("Failed to wait for python script: " ++ e)
  | .exited code stdout =>
    if statusSuccess code = false then
      .error ("stem separation failed with exit code: " ++ rustDebugOptInt code)
    else
      match parseEnvelope stdout with
      | .error e =>
        .error ("Failed to parse JSON output: " ++ e ++ " (Output: " ++ stdout ++ ")")
      | .ok result =>
        if result.success = false then
          .error (result.error.getD "Unknown error")
        else
          .ok result

/-- `separate_stems_with_progress`, as the pair (progress events delivered
on the channel, terminal result of the join handle).  When the spawn fails
no stderr-reading thread exists, so no events are delivered. -/
def separate_stems_with_progress
    (parseEnvelope : String → Except String StemSeparationResult)
    (outcome : ProcOutcome) (stderrLines : List String) :
    List StemProgress × Except String StemSeparationResult :=
  (match outcome with
    | .launchFailure _ => []
    | _ => stderrEvents stderrLines,
   separate_stems_terminal parseEnvelope outcome)

/-! ### Progress rescaling (pipeline B)

Mix phase: `5 + (progress as u32 * 40 / 100) as u8`; reference phase:
`50 + (progress as u32 * 40 / 100) as u8`.  The `as u8` cast is reduction
mod 256; the `u8` addition never overflows for `u8` inputs. -/

/-- Mix-phase rescaling of a raw percent into `[5, 45]`. -/
def scaleMixProgress (p : Nat) : Nat :=
  (5 + (p * 40 / 100) % 256) % 256

/-- Reference-phase rescaling of a raw percent into `[50, 90]`. -/
def scaleRefProgress (p : Nat) : Nat :=
  (50 + (p * 40 / 100) % 256) % 256

/-! ### Pipeline A (`process_analysis`)

The outcomes of the external collaborators, for one run, are collected in
`AnalysisEnv`.  The function itself is the sequence of writes it performs
to `state.jobs` under its own `job_id` (it touches no other store and no
other key), followed by folding those writes into the state. -/

/-- Collaborator outcomes for one `process_analysis` run: the
`analyze_pair` result, the `request_ai_completion` result, the optional
`project_id` gating persistence, and the three SQL insert outcomes
(`RETURNING id` values abstracted as `Nat`). -/
structure AnalysisEnv where
  analysis : Except String ComparisonResult
  ai : Except String String
  project_id : Option Nat
  mixVersionInsert : Except String Nat
  refTrackInsert : Except String Nat
  analysesInsert : Except String Unit

/-- Database operations pipeline A attempts (best-effort; outcomes never
influence the job status writes). -/
inductive DbOp where
  | insertMixVersion : DbOp
  | insertRefTrack : DbOp
  | insertAnalysis : DbOp
deriving DecidableEq

/-- The persistence step of `process_analysis`: performed only when a
`project_id` is present; the third insert only when the first two returned
ids; every failure is discarded. -/
def persistenceOps (env : AnalysisEnv) : List DbOp :=
  match env.project_id with
  | none => []
  | some _ =>
    [DbOp.insertMixVersion, DbOp.insertRefTrack] ++
      (match env.mixVersionInsert, env.refTrackInsert with
        | .ok _, .ok _ => [DbOp.insertAnalysis]
        | _, _ => [])

/-- The sequence of `state.jobs` writes `process_analysis` performs under
its `job_id`, in program order. -/
def processAnalysisWrites (env : AnalysisEnv) : List JobStatus :=
  JobStatus.Processing "Running Essentia Analysis..." ::
    match env.analysis with
    | .error e => [JobStatus.Failed ("Analysis Error: " ++ e)]
    | .ok metrics =>
      JobStatus.Processing "Consulting AI Expert..." ::
        match env.ai with
        | .error e => [JobStatus.Failed ("AI Error: " ++ e)]
        | .ok ai_text => [JobStatus.Completed metrics ai_text]

/-- Fold a write sequence into the analysis-job store. -/
def applyJobWrites (st : AppState) (job_id : String) (ws : List JobStatus) : AppState :=
  ws.foldl (fun s w => update_job_status s job_id w) st

/-- `process_analysis` from `main.rs`: its effect on the shared state. -/
def process_analysis (st : AppState) (job_id : String) (env : AnalysisEnv) : AppState :=
  applyJobWrites st job_id (processAnalysisWrites env)

/-! ### Pipeline B (`process_stem_separation`) -/

/-- Collaborator outcomes for one `process_stem_separation` run: the two
directory creations, and for each of the two sequential sub-invocations the
relayed progress events and the doubly-fallible result (outer error:
`spawn_blocking` join failure, reported as "Task panic"; inner: the runner
thread's own `Err`). -/
structure StemEnv where
  dirMix : Except String Unit
  dirRef : Except String Unit
  mixProgress : List StemProgress
  mixResult : Except String (Except String StemSeparationResult)
  refProgress : List StemProgress
  refResult : Except String (Except String StemSeparationResult)

/-- The sequence of `state.stem_jobs` writes `process_stem_separation`
performs under its `stem_job_id`, in program order. -/
def processStemWrites (env : StemEnv) : List StemJobStatus :=
  StemJobStatus.Separating 0 "Initializing Demucs..." ::
    match env.dirMix with
    | .error e => [StemJobStatus.Failed ("Failed to create output dir: " ++ e)]
    | .ok _ =>
      match env.dirRef with
      | .error e => [StemJobStatus.Failed ("Failed to create ref output dir: " ++ e)]
      | .ok _ =>
        StemJobStatus.Separating 2 "Starting mix stem separation..." ::
          (env.mixProgress.map
            (fun pr => StemJobStatus.Separating (scaleMixProgress pr.progress)
              ("Mix: " ++ pr.stage))) ++
          match env.mixResult with
          | .error e => [StemJobStatus.Failed ("Task panic: " ++ e)]
          | .ok (.error e) => [StemJobStatus.Failed ("Mix separation failed: " ++ e)]
          | .ok (.ok mixRes) =>
            StemJobStatus.Separating 50 "Starting reference stem separation..." ::
              (env.refProgress.map
                (fun pr => StemJobStatus.Separating (scaleRefProgress pr.progress)
                  ("Reference: " ++ pr.stage))) ++
              match env.refResult with
              | .error e => [StemJobStatus.Failed ("Task panic: " ++ e)]
              | .ok (.error e) => [StemJobStatus.Failed ("Reference separation failed: " ++ e)]
              | .ok (.ok _refRes) =>
                [StemJobStatus.Analyzing "all stems",
                 StemJobStatus.Completed
                   ⟨(mixRes.stems.getD []).map
                     (fun np => (np.1, ⟨np.2, -14, 2000, 8000⟩))⟩]

/-- Fold a write sequence into the stem-job store. -/
def applyStemWrites (st : AppState) (job_id : String) (ws : List StemJobStatus) : AppState :=
  ws.foldl (fun s w => update_stem_job_status s job_id w) st

/-- `process_stem_separation` from `main.rs`: its effect on the shared
state. -/
def process_stem_separation (st : AppState) (stem_job_id : String) (env : StemEnv) : AppState :=
  applyStemWrites st stem_job_id (processStemWrites env)

/-! ### Serde serialization of the status enums

Both enums derive `Serialize` with `#[serde(tag = "status", content =
"data")]` (adjacently tagged): a unit variant serializes as
`{"status":"<Variant>"}`, a newtype/tuple variant adds a `"data"` field
(tuple variants as an array), a struct variant's `"data"` is an object with
the fields in declaration order.  The serialization of the two large
payload structs (`ComparisonResult`, `StemAnalysisResult`) is abstracted as
a parameter.  Literal braces in the modelled JSON text are written with
their character codes. -/

/-- Hexadecimal digit character (lowercase), as used by `serde_json`'s
`\u00XX` escapes. -/
def hexDigit (n : Nat) : Char :=
  if n < 10 then Char.ofNat (('0').toNat + n) else Char.ofNat (('a').toNat + n - 10)

/-- `serde_json` escaping of one character inside a JSON string. -/
def escapeChar (c : Char) : List Char :=
  if c = '"' then ['\\', '"']
  else if c = '\\' then ['\\', '\\']
  else if c = '\x08' then ['\\', 'b']
  else if c = '\x09' then ['\\', 't']
  else if c = '\x0a' then ['\\', 'n']
  else if c = '\x0c' then ['\\', 'f']
  else if c = '\x0d' then ['\\', 'r']
  else if c.toNat < 32 then
    ['\\', 'u', '0', '0', hexDigit (c.toNat / 16), hexDigit (c.toNat % 16)]
  else [c]

/-- `serde_json` serialization of a string value (quotes and escapes). -/
def jsonString (s : String) : String :=
  "\"" ++ String.mk ((s.data.map escapeChar).flatten) ++ "\""

/-- `serde_json::to_string` of a `JobStatus`, with the `ComparisonResult`
payload serializer abstracted as `serC`. -/
def serializeJobStatus (serC : ComparisonResult → String) : JobStatus → String
  | .Queued => "\x7b\"status\":\"Queued\"\x7d"
  | .Processing s => "\x7b\"status\":\"Processing\",\"data\":" ++ jsonString s ++ "\x7d"
  | .Completed r t =>
    "\x7b\"status\":\"Completed\",\"data\":[" ++ serC r ++ "," ++ jsonString t ++ "]\x7d"
  | .Failed s => "\x7b\"status\":\"Failed\",\"data\":" ++ jsonString s ++ "\x7d"

/-- `serde_json::to_string` of a `StemJobStatus`, with the
`StemAnalysisResult` payload serializer abstracted as `serR`. -/
def serializeStemJobStatus (serR : StemAnalysisResult → String) : StemJobStatus → String
  | .Queued => "\x7b\"status\":\"Queued\"\x7d"
  | .Separating p stage =>
    "\x7b\"status\":\"Separating\",\"data\":\x7b\"progress\":" ++ Nat.repr p ++
      ",\"stage\":" ++ jsonString stage ++ "\x7d\x7d"
  | .Analyzing stem =>
    "\x7b\"status\":\"Analyzing\",\"data\":\x7b\"stem\":" ++ jsonString stem ++ "\x7d\x7d"
  | .Completed r => "\x7b\"status\":\"Completed\",\"data\":" ++ serR r ++ "\x7d"
  | .Failed s => "\x7b\"status\":\"Failed\",\"data\":" ++ jsonString s ++ "\x7d"

/-- The not-found sentinel of `job_status_stream`:
`json!({"status": "Failed", "data": "Job not found"}).to_string()` with
`serde_json`'s default map (keys in alphabetical order). -/
def jobNotFoundData : String :=
  "\x7b\"data\":\"Job not found\",\"status\":\"Failed\"\x7d"

/-- The not-found sentinel of `stem_job_status_stream`. -/
def stemNotFoundData : String :=
  "\x7b\"data\":\"Stem job not found\",\"status\":\"Failed\"\x7d"

/-! ### The status streams

Each stream polls the store at a fixed interval; the embedding takes the
sequence of samples (the store's record at each poll instant, `none` when
the identifier is absent) and produces the list of emitted events.  Per the
loop body: serialize the sample; emit only when the serialization differs
from the last emitted one; then stop when the sample is terminal; a `none`
sample emits the sentinel and stops. -/

/-- An emitted SSE event: either a serialized job record or the not-found
sentinel. -/
inductive StreamEvent (α : Type) where
  | state : α → StreamEvent α
  | notFound : StreamEvent α
deriving DecidableEq

/-- The state carried by an event, if any. -/
def StreamEvent.stateOf : StreamEvent α → Option α
  | .state s => some s
  | .notFound => none

/-- The polling loop shared by both streams, over a list of samples, with
`last` the last emitted serialization (initially the empty string). -/
def streamEvents (ser : α → String) (isTerm : α → Bool) :
    List (Option α) → String → List (StreamEvent α)
  | [], _ => []
  | none :: _, _ => [StreamEvent.notFound]
  | some s :: rest, last =>
    if ser s = last then
      (if isTerm s then [] else streamEvents ser isTerm rest last)
    else
      StreamEvent.state s ::
        (if isTerm s then [] else streamEvents ser isTerm rest (ser s))

/-- The break condition of `job_status_stream`: `Completed` and `Failed`
are terminal. -/
def jobIsTerminal : JobStatus → Bool
  | .Completed _ _ => true
  | .Failed _ => true
  | _ => false

/-- The break condition of `stem_job_status_stream`. -/
def stemIsTerminal : StemJobStatus → Bool
  | .Completed _ => true
  | .Failed _ => true
  | _ => false

/-- `job_status_stream` from `main.rs`: the events emitted for a sample
sequence (the loop starts with an empty `last_status_json`). -/
def job_status_stream (serC : ComparisonResult → String)
    (samples : List (Option JobStatus)) : List (StreamEvent JobStatus) :=
  streamEvents (serializeJobStatus serC) jobIsTerminal samples ""

/-- `stem_job_status_stream` from `main.rs`. -/
def stem_job_status_stream (serR : StemAnalysisResult → String)
    (samples : List (Option StemJobStatus)) : List (StreamEvent StemJobStatus) :=
  streamEvents (serializeStemJobStatus serR) stemIsTerminal samples ""

/-- The wire payload of an emitted event of `job_status_stream`. -/
def jobEventData (serC : ComparisonResult → String) : StreamEvent JobStatus → String
  | .state s => serializeJobStatus serC s
  | .notFound => jobNotFoundData

/-- The wire payload of an emitted event of `stem_job_status_stream`. -/
def stemEventData (serR : StemAnalysisResult → String) : StreamEvent StemJobStatus → String
  | .state s => serializeStemJobStatus serR s
  | .notFound => stemNotFoundData

/-- Stage ordinal of pipeline A's states: `Queued` before `Processing`
before terminal. -/
def jobOrdinal : JobStatus → Nat
  | .Queued => 0
  | .Processing _ => 1
  | .Completed _ _ => 2
  | .Failed _ => 2

/-- Stage ordinal of pipeline B's states. -/
def stemOrdinal : StemJobStatus → Nat
  | .Queued => 0
  | .Separating _ _ => 1
  | .Analyzing _ => 1
  | .Completed _ => 2
  | .Failed _ => 2

/-- A concrete empty state, used by witnesses. -/
def emptyState : AppState :=
  ⟨fun _ => none, fun _ => none⟩

/-- Whether an emitted event is a terminal state event. -/
def StreamEvent.isTerminalEvent (isTerm : α → Bool) : StreamEvent α → Bool
  | .state s => isTerm s
  | .notFound => false

/-- A concrete `AudioMetrics` value, used by witnesses. -/
def am0 : AudioMetrics :=
  ⟨-10, 5, -1, 3, 120, 1, 1, "C", "major", 440, 2500, 9000, 1⟩

/-- A concrete `ComparisonResult`, used by witnesses. -/
def cr0 : ComparisonResult :=
  ⟨am0, am0⟩

/-- A pipeline-A environment where the two analysis stages succeed but all
persistence operations fail, used by witnesses. -/
def envA0 : AnalysisEnv :=
  ⟨Except.ok cr0, Except.ok "report", some 1,
   Except.error "db down", Except.error "db down", Except.error "db down"⟩

/-- A pipeline-B environment where both sub-invocations succeed, the mix
one producing stem `vocals ↦ mix/vocals.wav` and the reference one
producing stem `vocals ↦ ref/vocals.wav`. -/
def envB0 : StemEnv :=
  ⟨Except.ok (), Except.ok (), [],
   Except.ok (Except.ok ⟨true, some [("vocals", "mix/vocals.wav")], some 44100, none⟩),
   [],
   Except.ok (Except.ok ⟨true, some [("vocals", "ref/vocals.wav")], some 44100, none⟩)⟩

/-! ## Helper lemmas -/

theorem string_data_append (a b : String) : (a ++ b).data = a.data ++ b.data := by
  obtain ⟨a⟩ := a
  obtain ⟨b⟩ := b
  rfl

theorem leadsWith_iff (ps : List Char) :
    ∀ l : List Char, leadsWith ps l = true ↔ ∃ t, l = ps ++ t := by
  induction ps with
  | nil =>
    intro l
    simp [leadsWith]
  | cons p ps ih =>
    intro l
    cases l with
    | nil =>
      simp [leadsWith]
    | cons c cs =>
      simp only [leadsWith, Bool.and_eq_true, decide_eq_true_eq, ih]
      constructor
      · rintro ⟨rfl, t, rfl⟩
        exact ⟨t, rfl⟩
      · rintro ⟨t, h⟩
        simp only [List.cons_append, List.cons.injEq] at h
        exact ⟨h.1.symm, t, h.2⟩

theorem breakAt_some_iff (sep : Char) :
    ∀ l a r : List Char, breakAt sep l = some (a, r) ↔ sep ∉ a ∧ l = a ++ sep :: r := by
  intro l
  induction l with
  | nil =>
    intro a r
    constructor
    · intro h
      exact absurd h (by simp [breakAt])
    · rintro ⟨_, h⟩
      exact absurd h (by simp)
  | cons c cs ih =>
    intro a r
    by_cases hc : c = sep
    · subst hc
      constructor
      · intro h
        simp only [breakAt, if_pos rfl, Option.some.injEq, Prod.mk.injEq] at h
        obtain ⟨rfl, rfl⟩ := h
        exact ⟨by simp, rfl⟩
      · rintro ⟨hmem, heq⟩
        cases a with
        | nil =>
          simp only [List.nil_append, List.cons.injEq] at heq
          simp [breakAt, heq.2]
        | cons b a' =>
          simp only [List.cons_append, List.cons.injEq] at heq
          exact absurd (heq.1 ▸ List.mem_cons_self b a') hmem
    · constructor
      · intro h
        simp only [breakAt, if_neg hc, Option.map_eq_some'] at h
        obtain ⟨⟨a', r'⟩, hbr, heq⟩ := h
        simp only [Prod.mk.injEq] at heq
        obtain ⟨ha, rfl⟩ := heq
        obtain ⟨hmem, rfl⟩ := (ih a' r').mp hbr
        refine ⟨?_, by rw [← ha]; simp⟩
        rw [← ha]
        simp only [List.mem_cons, not_or]
        exact ⟨fun h => hc h.symm, hmem⟩
      · rintro ⟨hmem, heq⟩
        cases a with
        | nil =>
          simp only [List.nil_append, List.cons.injEq] at heq
          exact absurd heq.1 hc
        | cons b a' =>
          simp only [List.cons_append, List.cons.injEq] at heq
          obtain ⟨rfl, heq⟩ := heq
          have hmem' : sep ∉ a' := fun h => hmem (List.mem_cons_of_mem _ h)
          simp only [breakAt, if_neg hc, (ih a' r).mpr ⟨hmem', heq⟩, Option.map_some']

theorem pairwise_of_forall_pairs {α : Type} {R : α → α → Prop}
    (h : ∀ a b, R a b) : ∀ l : List α, l.Pairwise R := by
  intro l
  induction l with
  | nil => exact List.Pairwise.nil
  | cons a t ih => exact List.Pairwise.cons (fun b _ => h a b) ih

theorem pairwise_front_last {α : Type} (f : α → Nat) (front : List α) (t : α)
    (hf : ∀ a ∈ front, f a = 1) (ht : 1 ≤ f t) :
    (front ++ [t]).Pairwise (fun a b => f a ≤ f b) := by
  refine List.pairwise_append.mpr ⟨?_, ?_, ?_⟩
  · exact List.pairwise_of_forall_mem_list (fun a ha b hb => by rw [hf a ha, hf b hb])
  · simp
  · intro a ha b hb
    simp only [List.mem_singleton] at hb
    subst hb
    rw [hf a ha]
    exact ht

theorem progressTag_data : ("PROGRESS:".data) = ("PROGRESS".data) ++ [':'] := by
  decide

theorem parseProgressLine_some_iff (l : List Char) (p : Nat) (st : List Char) :
    parseProgressLine l = some (p, st) ↔
      ∃ mid, ':' ∉ mid ∧ l = ("PROGRESS:".data) ++ mid ++ ':' :: st ∧ parseU8 mid = some p := by
  constructor
  · intro h
    by_cases hl : leadsWith ("PROGRESS:".data) l = true
    · obtain ⟨t, ht⟩ := (leadsWith_iff _ l).mp hl
      have hb0 : breakAt ':' l = some ("PROGRESS".data, t) := by
        refine (breakAt_some_iff ':' l _ _).mpr ⟨by decide, ?_⟩
        rw [ht, progressTag_data]
        simp
      rw [parseProgressLine, if_pos hl] at h
      rcases hb1 : breakAt ':' l with _ | ⟨a, r⟩
      · simp only [splitn3, hb1] at h
        exact absurd h (by simp)
      · rcases hb2 : breakAt ':' r with _ | ⟨b, r2⟩
        · simp only [splitn3, hb1, hb2] at h
          exact absurd h (by simp)
        · simp only [splitn3, hb1, hb2] at h
          rcases hp : parseU8 b with _ | n
          · simp only [hp] at h
            exact absurd h (by simp)
          · simp only [hp, Option.some.injEq, Prod.mk.injEq] at h
            obtain ⟨rfl, rfl⟩ := h
            rw [hb0] at hb1
            simp only [Option.some.injEq, Prod.mk.injEq] at hb1
            obtain ⟨rfl, rfl⟩ := hb1
            obtain ⟨hbm, rfl⟩ := (breakAt_some_iff ':' _ _ _).mp hb2
            refine ⟨b, hbm, ?_, hp⟩
            rw [ht, progressTag_data]
            simp
    · rw [parseProgressLine, if_neg hl] at h
      exact absurd h (by simp)
  · rintro ⟨mid, hmem, rfl, hparse⟩
    have hl : leadsWith ("PROGRESS:".data) (("PROGRESS:".data) ++ mid ++ ':' :: st) = true := by
      refine (leadsWith_iff _ _).mpr ⟨mid ++ ':' :: st, ?_⟩
      simp
    have hb1 : breakAt ':' (("PROGRESS:".data) ++ mid ++ ':' :: st)
        = some ("PROGRESS".data, mid ++ ':' :: st) := by
      refine (breakAt_some_iff ':' _ _ _).mpr ⟨by decide, ?_⟩
      rw [progressTag_data]
      simp
    have hb2 : breakAt ':' (mid ++ ':' :: st) = some (mid, st) :=
      (breakAt_some_iff ':' _ _ _).mpr ⟨hmem, rfl⟩
    rw [parseProgressLine, if_pos hl]
    simp only [splitn3, hb1, hb2, hparse]

/-! ### Stream lemmas -/

theorem eq_singleton_append_cons {β : Type} {x e : β} {pre post : List β}
    (h : [x] = pre ++ e :: post) : post = [] := by
  cases pre with
  | nil =>
    injection h with h1 h2
    exact h2.symm
  | cons q pre' =>
    rw [List.cons_append] at h
    injection h with h1 h2
    exact absurd h2.symm (by simp)

theorem streamEvents_terminal_last {α : Type} (ser : α → String) (isTerm : α → Bool) :
    ∀ (samples : List (Option α)) (last : String) (pre : List (StreamEvent α))
      (e : StreamEvent α) (post : List (StreamEvent α)),
      streamEvents ser isTerm samples last = pre ++ e :: post →
      StreamEvent.isTerminalEvent isTerm e = true → post = [] := by
  intro samples
  induction samples with
  | nil =>
    intro last pre e post h _
    exact absurd h.symm (by simp [streamEvents])
  | cons o rest ih =>
    intro last pre e post h hterm
    match o with
    | none =>
      simp only [streamEvents] at h
      exact eq_singleton_append_cons h
    | some s =>
      by_cases hs : ser s = last
      · by_cases ht : isTerm s
        · simp only [streamEvents, if_pos hs, if_pos ht] at h
          exact absurd h.symm (by simp)
        · simp only [streamEvents, if_pos hs, if_neg ht] at h
          exact ih last pre e post h hterm
      · by_cases ht : isTerm s
        · simp only [streamEvents, if_neg hs, if_pos ht] at h
          exact eq_singleton_append_cons h
        · simp only [streamEvents, if_neg hs, if_neg ht] at h
          cases pre with
          | nil =>
            simp only [List.nil_append, List.cons.injEq] at h
            obtain ⟨he, _⟩ := h
            rw [← he] at hterm
            simp only [StreamEvent.isTerminalEvent] at hterm
            exact absurd hterm ht
          | cons q pre' =>
            simp only [List.cons_append, List.cons.injEq] at h
            exact ih (ser s) pre' e post h.2 hterm

theorem streamEvents_states_sublist {α : Type} (ser : α → String) (isTerm : α → Bool) :
    ∀ (samples : List (Option α)) (last : String),
      ((streamEvents ser isTerm samples last).filterMap StreamEvent.stateOf).Sublist
        (samples.filterMap id) := by
  intro samples
  induction samples with
  | nil =>
    intro last
    simp [streamEvents]
  | cons o rest ih =>
    intro last
    match o with
    | none =>
      simp [streamEvents, StreamEvent.stateOf]
    | some s =>
      by_cases hs : ser s = last
      · by_cases ht : isTerm s
        · simp only [streamEvents, if_pos hs, if_pos ht]
          simp only [List.filterMap_nil, List.filterMap_cons, id]
          exact List.nil_sublist _
        · simp only [streamEvents, if_pos hs, if_neg ht, List.filterMap_cons, id]
          exact (ih last).cons s
      · by_cases ht : isTerm s
        · simp only [streamEvents, if_neg hs, if_pos ht, List.filterMap_cons,
            StreamEvent.stateOf, List.filterMap_nil, id]
          exact (List.nil_sublist _).cons₂ s
        · simp only [streamEvents, if_neg hs, if_neg ht, List.filterMap_cons,
            StreamEvent.stateOf, id]
          exact (ih (ser s)).cons₂ s

/-! ### Store-fold lemmas -/

theorem applyJobWrites_stem_jobs (st : AppState) (id : String) (ws : List JobStatus) :
    (applyJobWrites st id ws).stem_jobs = st.stem_jobs := by
  induction ws generalizing st with
  | nil => rfl
  | cons w ws ih => exact ih (update_job_status st id w)

theorem applyJobWrites_other (st : AppState) (id : String) (ws : List JobStatus)
    (k : String) (h : k ≠ id) : (applyJobWrites st id ws).jobs k = st.jobs k := by
  induction ws generalizing st with
  | nil => rfl
  | cons w ws ih =>
    have step : applyJobWrites st id (w :: ws) = applyJobWrites (update_job_status st id w) id ws := rfl
    rw [step, ih]
    simp [update_job_status, if_neg h]

theorem applyJobWrites_append_last (st : AppState) (id : String)
    (front : List JobStatus) (t : JobStatus) :
    (applyJobWrites st id (front ++ [t])).jobs id = some t := by
  have step : applyJobWrites st id (front ++ [t])
      = update_job_status (applyJobWrites st id front) id t := by
    show List.foldl _ st (front ++ [t]) = _
    rw [List.foldl_append]
    rfl
  rw [step]
  simp [update_job_status]

theorem applyStemWrites_jobs (st : AppState) (id : String) (ws : List StemJobStatus) :
    (applyStemWrites st id ws).jobs = st.jobs := by
  induction ws generalizing st with
  | nil => rfl
  | cons w ws ih => exact ih (update_stem_job_status st id w)

theorem applyStemWrites_other (st : AppState) (id : String) (ws : List StemJobStatus)
    (k : String) (h : k ≠ id) : (applyStemWrites st id ws).stem_jobs k = st.stem_jobs k := by
  induction ws generalizing st with
  | nil => rfl
  | cons w ws ih =>
    have step : applyStemWrites st id (w :: ws)
        = applyStemWrites (update_stem_job_status st id w) id ws := rfl
    rw [step, ih]
    simp [update_stem_job_status, if_neg h]

theorem applyStemWrites_append_last (st : AppState) (id : String)
    (front : List StemJobStatus) (t : StemJobStatus) :
    (applyStemWrites st id (front ++ [t])).stem_jobs id = some t := by
  have step : applyStemWrites st id (front ++ [t])
      = update_stem_job_status (applyStemWrites st id front) id t := by
    show List.foldl _ st (front ++ [t]) = _
    rw [List.foldl_append]
    rfl
  rw [step]
  simp [update_stem_job_status]

/-! ### Pipeline-trace lemmas -/

theorem processAnalysisWrites_pairwise (env : AnalysisEnv) :
    (processAnalysisWrites env).Pairwise (fun a b => jobOrdinal a ≤ jobOrdinal b) := by
  rcases h1 : env.analysis with e | metrics
  · simp [processAnalysisWrites, h1, List.pairwise_cons, jobOrdinal]
  · rcases h2 : env.ai with e | ai_text
    · simp [processAnalysisWrites, h1, h2, List.pairwise_cons, jobOrdinal]
    · simp [processAnalysisWrites, h1, h2, List.pairwise_cons, jobOrdinal]

/-- Every run of pipeline B writes a sequence of ordinal-1 states followed
by exactly one terminal write: a `Completed` built from the mix stems when
everything succeeded, a `Failed` otherwise. -/
theorem processStemWrites_cases (env : StemEnv) :
    ∃ front t, processStemWrites env = front ++ [t] ∧
      (∀ a ∈ front, stemOrdinal a = 1) ∧ 1 ≤ stemOrdinal t ∧
      ((∃ mixRes refRes,
          env.dirMix = .ok () ∧ env.dirRef = .ok () ∧
          env.mixResult = .ok (.ok mixRes) ∧ env.refResult = .ok (.ok refRes) ∧
          t = StemJobStatus.Completed
                ⟨(mixRes.stems.getD []).map
                  (fun np => (np.1, ⟨np.2, -14, 2000, 8000⟩))⟩) ∨
        (∃ msg, t = StemJobStatus.Failed msg)) := by
  rcases hdm : env.dirMix with e | u
  · refine ⟨[StemJobStatus.Separating 0 "Initializing Demucs..."],
      StemJobStatus.Failed ("Failed to create output dir: " ++ e),
      by simp [processStemWrites, hdm], ?_, by simp [stemOrdinal], Or.inr ⟨_, rfl⟩⟩
    intro a ha
    simp only [List.mem_singleton] at ha
    subst ha
    rfl
  · obtain ⟨⟩ := u
    rcases hdr : env.dirRef with e | u
    · refine ⟨[StemJobStatus.Separating 0 "Initializing Demucs..."],
        StemJobStatus.Failed ("Failed to create ref output dir: " ++ e),
        by simp [processStemWrites, hdm, hdr], ?_, by simp [stemOrdinal], Or.inr ⟨_, rfl⟩⟩
      intro a ha
      simp only [List.mem_singleton] at ha
      subst ha
      rfl
    · obtain ⟨⟩ := u
      rcases hmr : env.mixResult with e | mr
      · refine ⟨StemJobStatus.Separating 0 "Initializing Demucs..." ::
          StemJobStatus.Separating 2 "Starting mix stem separation..." ::
          env.mixProgress.map (fun pr => StemJobStatus.Separating
            (scaleMixProgress pr.progress) ("Mix: " ++ pr.stage)),
          StemJobStatus.Failed ("Task panic: " ++ e),
          by simp [processStemWrites, hdm, hdr, hmr], ?_, by simp [stemOrdinal],
          Or.inr ⟨_, rfl⟩⟩
        intro a ha
        simp only [List.mem_cons, List.mem_map] at ha
        rcases ha with rfl | rfl | ⟨pr, _, rfl⟩ <;> rfl
      · rcases mr with e | mixRes
        · refine ⟨StemJobStatus.Separating 0 "Initializing Demucs..." ::
            StemJobStatus.Separating 2 "Starting mix stem separation..." ::
            env.mixProgress.map (fun pr => StemJobStatus.Separating
              (scaleMixProgress pr.progress) ("Mix: " ++ pr.stage)),
            StemJobStatus.Failed ("Mix separation failed: " ++ e),
            by simp [processStemWrites, hdm, hdr, hmr], ?_, by simp [stemOrdinal],
            Or.inr ⟨_, rfl⟩⟩
          intro a ha
          simp only [List.mem_cons, List.mem_map] at ha
          rcases ha with rfl | rfl | ⟨pr, _, rfl⟩ <;> rfl
        · rcases hrr : env.refResult with e | rr
          · refine ⟨StemJobStatus.Separating 0 "Initializing Demucs..." ::
              StemJobStatus.Separating 2 "Starting mix stem separation..." ::
              env.mixProgress.map (fun pr => StemJobStatus.Separating
                (scaleMixProgress pr.progress) ("Mix: " ++ pr.stage)) ++
              StemJobStatus.Separating 50 "Starting reference stem separation..." ::
              env.refProgress.map (fun pr => StemJobStatus.Separating
                (scaleRefProgress pr.progress) ("Reference: " ++ pr.stage)),
              StemJobStatus.Failed ("Task panic: " ++ e),
              by simp [processStemWrites, hdm, hdr, hmr, hrr], ?_, by simp [stemOrdinal],
              Or.inr ⟨_, rfl⟩⟩
            intro a ha
            simp only [List.cons_append, List.mem_cons, List.mem_append, List.mem_map,
              or_assoc] at ha
            rcases ha with rfl | rfl | ⟨pr, _, rfl⟩ | rfl | ⟨pr, _, rfl⟩ <;> rfl
          · rcases rr with e | refRes
            · refine ⟨StemJobStatus.Separating 0 "Initializing Demucs..." ::
                StemJobStatus.Separating 2 "Starting mix stem separation..." ::
                env.mixProgress.map (fun pr => StemJobStatus.Separating
                  (scaleMixProgress pr.progress) ("Mix: " ++ pr.stage)) ++
                StemJobStatus.Separating 50 "Starting reference stem separation..." ::
                env.refProgress.map (fun pr => StemJobStatus.Separating
                  (scaleRefProgress pr.progress) ("Reference: " ++ pr.stage)),
                StemJobStatus.Failed ("Reference separation failed: " ++ e),
                by simp [processStemWrites, hdm, hdr, hmr, hrr], ?_, by simp [stemOrdinal],
                Or.inr ⟨_, rfl⟩⟩
              intro a ha
              simp only [List.cons_append, List.mem_cons, List.mem_append, List.mem_map,
                or_assoc] at ha
              rcases ha with rfl | rfl | ⟨pr, _, rfl⟩ | rfl | ⟨pr, _, rfl⟩ <;> rfl
            · refine ⟨StemJobStatus.Separating 0 "Initializing Demucs..." ::
                StemJobStatus.Separating 2 "Starting mix stem separation..." ::
                env.mixProgress.map (fun pr => StemJobStatus.Separating
                  (scaleMixProgress pr.progress) ("Mix: " ++ pr.stage)) ++
                StemJobStatus.Separating 50 "Starting reference stem separation..." ::
                env.refProgress.map (fun pr => StemJobStatus.Separating
                  (scaleRefProgress pr.progress) ("Reference: " ++ pr.stage)) ++
                [StemJobStatus.Analyzing "all stems"],
                StemJobStatus.Completed
                  ⟨(mixRes.stems.getD []).map
                    (fun np => (np.1, ⟨np.2, -14, 2000, 8000⟩))⟩,
                ?_, ?_, by simp [stemOrdinal],
                Or.inl ⟨mixRes, refRes, rfl, rfl, rfl, rfl, rfl⟩⟩
              · simp [processStemWrites, hdm, hdr, hmr, hrr]
              · intro a ha
                simp only [List.cons_append, List.mem_cons, List.mem_append,
                  List.mem_map, List.mem_singleton, or_assoc] at ha
                rcases ha with rfl | rfl | ⟨pr, _, rfl⟩ | rfl | ⟨pr, _, rfl⟩ | rfl | h
                · rfl
                · rfl
                · rfl
                · rfl
                · rfl
                · rfl
                · exact absurd h (List.not_mem_nil a)

theorem processStemWrites_pairwise (env : StemEnv) :
    (processStemWrites env).Pairwise (fun a b => stemOrdinal a ≤ stemOrdinal b) := by
  obtain ⟨front, t, heq, hf, ht, _⟩ := processStemWrites_cases env
  rw [heq]
  exact pairwise_front_last stemOrdinal front t hf ht

/-! ### Serialization distinguishers -/

theorem append_getElem2 (a b : String) (h : 2 < a.data.length) :
    (a ++ b).data[2]? = a.data[2]? ∧ 2 < (a ++ b).data.length := by
  rw [string_data_append]
  refine ⟨List.getElem?_append_left h, ?_⟩
  rw [List.length_append]
  omega

theorem serializeJobStatus_ne_sentinel (serC : ComparisonResult → String) (s : JobStatus) :
    serializeJobStatus serC s ≠ jobNotFoundData := by
  cases s with
  | Queued =>
    intro h
    simp only [serializeJobStatus] at h
    exact absurd h (by decide)
  | Processing s =>
    intro h
    simp only [serializeJobStatus] at h
    apply_fun (fun u : String => u.data[2]?) at h
    have s1 := append_getElem2 "\x7b\"status\":\"Processing\",\"data\":" (jsonString s) (by decide)
    have s2 := append_getElem2 _ "\x7d" s1.2
    rw [s2.1, s1.1] at h
    exact absurd h (by decide)
  | Completed r t =>
    intro h
    simp only [serializeJobStatus] at h
    apply_fun (fun u : String => u.data[2]?) at h
    have s1 := append_getElem2 "\x7b\"status\":\"Completed\",\"data\":[" (serC r) (by decide)
    have s2 := append_getElem2 _ "," s1.2
    have s3 := append_getElem2 _ (jsonString t) s2.2
    have s4 := append_getElem2 _ "]\x7d" s3.2
    rw [s4.1, s3.1, s2.1, s1.1] at h
    exact absurd h (by decide)
  | Failed s =>
    intro h
    simp only [serializeJobStatus] at h
    apply_fun (fun u : String => u.data[2]?) at h
    have s1 := append_getElem2 "\x7b\"status\":\"Failed\",\"data\":" (jsonString s) (by decide)
    have s2 := append_getElem2 _ "\x7d" s1.2
    rw [s2.1, s1.1] at h
    exact absurd h (by decide)

theorem serializeStemJobStatus_ne_sentinel (serR : StemAnalysisResult → String)
    (s : StemJobStatus) : serializeStemJobStatus serR s ≠ stemNotFoundData := by
  cases s with
  | Queued =>
    intro h
    simp only [serializeStemJobStatus] at h
    exact absurd h (by decide)
  | Separating p stage =>
    intro h
    simp only [serializeStemJobStatus] at h
    apply_fun (fun u : String => u.data[2]?) at h
    have s1 := append_getElem2 "\x7b\"status\":\"Separating\",\"data\":\x7b\"progress\":"
      (Nat.repr p) (by decide)
    have s2 := append_getElem2 _ ",\"stage\":" s1.2
    have s3 := append_getElem2 _ (jsonString stage) s2.2
    have s4 := append_getElem2 _ "\x7d\x7d" s3.2
    rw [s4.1, s3.1, s2.1, s1.1] at h
    exact absurd h (by decide)
  | Analyzing stem =>
    intro h
    simp only [serializeStemJobStatus] at h
    apply_fun (fun u : String => u.data[2]?) at h
    have s1 := append_getElem2 "\x7b\"status\":\"Analyzing\",\"data\":\x7b\"stem\":"
      (jsonString stem) (by decide)
    have s2 := append_getElem2 _ "\x7d\x7d" s1.2
    rw [s2.1, s1.1] at h
    exact absurd h (by decide)
  | Completed r =>
    intro h
    simp only [serializeStemJobStatus] at h
    apply_fun (fun u : String => u.data[2]?) at h
    have s1 := append_getElem2 "\x7b\"status\":\"Completed\",\"data\":" (serR r) (by decide)
    have s2 := append_getElem2 _ "\x7d" s1.2
    rw [s2.1, s1.1] at h
    exact absurd h (by decide)
  | Failed s =>
    intro h
    simp only [serializeStemJobStatus] at h
    apply_fun (fun u : String => u.data[2]?) at h
    have s1 := append_getElem2 "\x7b\"status\":\"Failed\",\"data\":" (jsonString s) (by decide)
    have s2 := append_getElem2 _ "\x7d" s1.2
    rw [s2.1, s1.1] at h
    exact absurd h (by decide)

/-! ## Claims -/

/-- C1: Pipelines A and B launched for the same submission are independent:
`process_analysis` writes only to its own job's record in `state.jobs` and
never touches `state.stem_jobs`; `process_stem_separation` writes only to
its own record in `state.stem_jobs` and never touches `state.jobs`; hence
for a pair of jobs created by one submission, any outcome of one pipeline
(including any failure environment) leaves the other pipeline's record,
terminal or not, unchanged. -/
theorem claim_C1_pipeline_independence :
    (∀ st job_id env, (process_analysis st job_id env).stem_jobs = st.stem_jobs) ∧
    (∀ st job_id env k, k ≠ job_id → (process_analysis st job_id env).jobs k = st.jobs k) ∧
    (∀ st stem_job_id env, (process_stem_separation st stem_job_id env).jobs = st.jobs) ∧
    (∀ st stem_job_id env k, k ≠ stem_job_id →
      (process_stem_separation st stem_job_id env).stem_jobs k = st.stem_jobs k) ∧
    (∀ st job_id stem_job_id envA envB,
      (process_stem_separation (process_analysis st job_id envA) stem_job_id envB).jobs job_id
        = (process_analysis st job_id envA).jobs job_id ∧
      (process_analysis (process_stem_separation st stem_job_id envB) job_id envA).stem_jobs
          stem_job_id
        = (process_stem_separation st stem_job_id envB).stem_jobs stem_job_id) := by
  refine ⟨?_, ?_, ?_, ?_, ?_⟩
  · intro st jid env
    exact applyJobWrites_stem_jobs st jid _
  · intro st jid env k h
    exact applyJobWrites_other st jid _ k h
  · intro st sid env
    exact applyStemWrites_jobs st sid _
  · intro st sid env k h
    exact applyStemWrites_other st sid _ k h
  · intro st jid sid envA envB
    exact ⟨congrFun (applyStemWrites_jobs _ sid _) jid,
           congrFun (applyJobWrites_stem_jobs _ jid _) sid⟩

theorem claim_C1_witness :
    (("other" : String) ≠ "job1") ∧
    (process_analysis emptyState "job1"
        ⟨Except.error "boom", Except.error "ai", none,
         Except.error "db", Except.error "db", Except.error "db"⟩).jobs "other"
      = emptyState.jobs "other" :=
  ⟨by decide,
   claim_C1_pipeline_independence.2.1 emptyState "job1"
     ⟨Except.error "boom", Except.error "ai", none,
      Except.error "db", Except.error "db", Except.error "db"⟩ "other" (by decide)⟩

/-- C2: a subscription to an identifier absent from the store emits exactly
one `NotFound` event and closes, and that event's serialized payload is
distinguishable from the serialization of every declared job state
(including any `Failed` state), for both streams. -/
theorem claim_C2_notfound_distinct :
    (∀ (serC : ComparisonResult → String) (rest : List (Option JobStatus)),
      job_status_stream serC (none :: rest) = [StreamEvent.notFound]) ∧
    (∀ (serR : StemAnalysisResult → String) (rest : List (Option StemJobStatus)),
      stem_job_status_stream serR (none :: rest) = [StreamEvent.notFound]) ∧
    (∀ serC, jobEventData serC StreamEvent.notFound = jobNotFoundData) ∧
    (∀ serR, stemEventData serR StreamEvent.notFound = stemNotFoundData) ∧
    (∀ serC s, jobEventData serC (StreamEvent.state s) ≠ jobNotFoundData) ∧
    (∀ serR s, stemEventData serR (StreamEvent.state s) ≠ stemNotFoundData) := by
  refine ⟨fun _ _ => rfl, fun _ _ => rfl, fun _ => rfl, fun _ => rfl, ?_, ?_⟩
  · intro serC s
    exact serializeJobStatus_ne_sentinel serC s
  · intro serR s
    exact serializeStemJobStatus_ne_sentinel serR s

theorem claim_C2_witness :
    (job_status_stream (fun _ => "") [none] = [StreamEvent.notFound]) ∧
    jobEventData (fun _ => "") (StreamEvent.state (JobStatus.Failed "Job not found"))
      ≠ jobNotFoundData :=
  ⟨claim_C2_notfound_distinct.1 (fun _ => "") [],
   claim_C2_notfound_distinct.2.2.2.2.1 (fun _ => "") (JobStatus.Failed "Job not found")⟩

/-- C3 (counterexample): the relay delivers an event for the line
`PROGRESS:200:x` even though 200 is outside `0..=100` — Rust parses the
percent as `u8`, so any value up to 255 is accepted and relayed, refuting
the claimed "if and only if … percent an integer in 0..=100". -/
theorem claim_C3_counterexample :
    parseProgressLineS "PROGRESS:200:x" = some ⟨200, "x"⟩ ∧
    ¬ claimProgressForm ("PROGRESS:200:x".data) 200 ("x".data) := by
  refine ⟨by decide, ?_⟩
  intro h
  exact absurd h.2 (by decide)

/-- C3 (amended): the relay delivers an event if and only if the line is
`PROGRESS:` followed by a colon-free middle field that parses as a `u8`
(an integer in 0..=255, allowing a leading `+` and leading zeros), a colon,
and the stage text (which may itself contain colons); the event carries
exactly that parsed percent and that stage text; every other line yields no
event.  In particular `PROGRESS:42:Halfway done` yields percent 42 with
stage `Halfway done`, and `WARNING: low disk space` yields nothing. -/
theorem claim_C3_progress_parse :
    (∀ (s : String) (p : Nat) (stage : String),
      parseProgressLineS s = some ⟨p, stage⟩ ↔
        ∃ mid, ':' ∉ mid ∧ s.data = ("PROGRESS:".data) ++ mid ++ ':' :: stage.data ∧
          parseU8 mid = some p) ∧
    parseProgressLineS "PROGRESS:42:Halfway done" = some ⟨42, "Halfway done"⟩ ∧
    parseProgressLineS "WARNING: low disk space" = none ∧
    (∀ lines : List String, stderrEvents lines = lines.filterMap parseProgressLineS) := by
  refine ⟨?_, by decide, by decide, fun _ => rfl⟩
  intro s p stage
  unfold parseProgressLineS
  constructor
  · intro h
    rcases hp : parseProgressLine s.data with _ | ⟨n, st⟩
    · rw [hp] at h
      exact absurd h (by simp)
    · rw [hp] at h
      simp only [Option.map_some', Option.some.injEq] at h
      injection h with h1 h2
      obtain ⟨mid, g1, g2, g3⟩ := (parseProgressLine_some_iff s.data n st).mp hp
      have hst : stage.data = st := by rw [← h2]
      refine ⟨mid, g1, ?_, ?_⟩
      · rw [hst]
        exact g2
      · rw [← h1]
        exact g3
  · rintro ⟨mid, h1, h2, h3⟩
    have hp : parseProgressLine s.data = some (p, stage.data) :=
      (parseProgressLine_some_iff _ _ _).mpr ⟨mid, h1, h2, h3⟩
    rw [hp]
    rfl

theorem claim_C3_witness :
    (parseProgressLineS "PROGRESS:42:Halfway done" = some ⟨42, "Halfway done"⟩) ∧
    (∃ mid, ':' ∉ mid ∧
      ("PROGRESS:42:Halfway done".data)
        = ("PROGRESS:".data) ++ mid ++ ':' :: ("Halfway done".data) ∧
      parseU8 mid = some 42) :=
  ⟨by decide,
   (claim_C3_progress_parse.1 "PROGRESS:42:Halfway done" 42 "Halfway done").mp (by decide)⟩

/-- C4: the external-process runner yields a terminal `Failure` (never a
`Success`) when: the process fails to launch; it exits non-zero (the
failure message carries the exit code, e.g. exit 1 with empty output gives
`… exit code: Some(1)`); the stdout payload fails to parse as the envelope;
or the envelope carries `success=false` (the failure carries the envelope's
error text verbatim, e.g. `bad input`); and a `Success` arises only from a
zero exit whose stdout parses to an envelope with `success=true`. -/
theorem claim_C4_runner_failures :
    ∀ parseEnvelope : String → Except String StemSeparationResult,
      (∀ e, separate_stems_terminal parseEnvelope (ProcOutcome.launchFailure e)
          = Except.error ("Failed to execute python script: " ++ e)) ∧
      (∀ code out, code ≠ some 0 →
        separate_stems_terminal parseEnvelope (ProcOutcome.exited code out)
          = Except.error ("stem separation failed with exit code: " ++ rustDebugOptInt code)) ∧
      (separate_stems_terminal parseEnvelope (ProcOutcome.exited (some 1) "")
          = Except.error "stem separation failed with exit code: Some(1)") ∧
      (∀ out e, parseEnvelope out = Except.error e →
        separate_stems_terminal parseEnvelope (ProcOutcome.exited (some 0) out)
          = Except.error ("Failed to parse JSON output: " ++ e ++ " (Output: " ++ out ++ ")")) ∧
      (∀ out r, parseEnvelope out = Except.ok r → r.success = false →
        separate_stems_terminal parseEnvelope (ProcOutcome.exited (some 0) out)
          = Except.error (r.error.getD "Unknown error")) ∧
      (∀ out, parseEnvelope out = Except.ok ⟨false, none, none, some "bad input"⟩ →
        separate_stems_terminal parseEnvelope (ProcOutcome.exited (some 0) out)
          = Except.error "bad input") ∧
      (∀ oc r, separate_stems_terminal parseEnvelope oc = Except.ok r →
        (∃ out, oc = ProcOutcome.exited (some 0) out ∧ parseEnvelope out = Except.ok r) ∧
          r.success = true) := by
  intro parseEnvelope
  have hb : ∀ code out, code ≠ some 0 →
      separate_stems_terminal parseEnvelope (ProcOutcome.exited code out)
        = Except.error ("stem separation failed with exit code: " ++ rustDebugOptInt code) := by
    intro code out h
    have hs : statusSuccess code = false := by
      simp only [statusSuccess, decide_eq_false_iff_not]
      exact h
    simp [separate_stems_terminal, hs]
  refine ⟨fun e => rfl, hb, ?_, ?_, ?_, ?_, ?_⟩
  · rw [hb (some 1) "" (by simp)]
    rfl
  · intro out e h
    have hs : statusSuccess (some 0) = true := by decide
    simp [separate_stems_terminal, hs, h]
  · intro out r h hsucc
    have hs : statusSuccess (some 0) = true := by decide
    simp [separate_stems_terminal, hs, h, hsucc]
  · intro out h
    have hs : statusSuccess (some 0) = true := by decide
    simp [separate_stems_terminal, hs, h]
  · intro oc r h
    cases oc with
    | launchFailure e =>
      exact absurd h (by simp [separate_stems_terminal])
    | waitFailure e =>
      exact absurd h (by simp [separate_stems_terminal])
    | exited code out =>
      by_cases hs : statusSuccess code = false
      · rw [separate_stems_terminal, if_pos hs] at h
        exact absurd h (by simp)
      · have hcode : code = some 0 := by
          simp only [statusSuccess, Bool.not_eq_false, decide_eq_true_eq] at hs
          exact hs
        rw [separate_stems_terminal, if_neg hs] at h
        rcases hp : parseEnvelope out with e | res
        · simp only [hp] at h
          exact absurd h (by simp)
        · simp only [hp] at h
          by_cases hres : res.success = false
          · rw [if_pos hres] at h
            exact absurd h (by simp)
          · rw [if_neg hres] at h
            simp only [Except.ok.injEq] at h
            subst h
            exact ⟨⟨out, by rw [hcode], hp⟩, by
              simp only [Bool.not_eq_false] at hres
              exact hres⟩

theorem claim_C4_witness :
    ((fun out => if out = "\x7b\"success\":false,\"result\":null,\"error\":\"bad input\"\x7d"
        then Except.ok (⟨false, none, none, some "bad input"⟩ : StemSeparationResult)
        else Except.error "unexpected")
        "\x7b\"success\":false,\"result\":null,\"error\":\"bad input\"\x7d"
      = Except.ok (⟨false, none, none, some "bad input"⟩ : StemSeparationResult)) ∧
    separate_stems_terminal
      (fun out => if out = "\x7b\"success\":false,\"result\":null,\"error\":\"bad input\"\x7d"
        then Except.ok (⟨false, none, none, some "bad input"⟩ : StemSeparationResult)
        else Except.error "unexpected")
      (ProcOutcome.exited (some 0)
        "\x7b\"success\":false,\"result\":null,\"error\":\"bad input\"\x7d")
      = Except.error "bad input" :=
  ⟨by rfl,
   ((claim_C4_runner_failures
      (fun out => if out = "\x7b\"success\":false,\"result\":null,\"error\":\"bad input\"\x7d"
        then Except.ok (⟨false, none, none, some "bad input"⟩ : StemSeparationResult)
        else Except.error "unexpected")).2.2.2.2.2.1)
    "\x7b\"success\":false,\"result\":null,\"error\":\"bad input\"\x7d" (by rfl)⟩

/-- C5: for every raw percent `p ∈ [0,100]`, the value pipeline B writes
into its `Separating` state is the integer rescaling `lo + p*(hi-lo)/100`
of `p` into the stage sub-range — `[5,45]` for the mix sub-invocation and
`[50,90]` for the reference sub-invocation — which is monotone in `p` and
stays within `[lo,hi]`; and those rescaled values are exactly what
`process_stem_separation` writes for each relayed progress event. -/
theorem claim_C5_rescaling :
    (∀ p q : Nat, p ≤ 100 → q ≤ 100 →
      (scaleMixProgress p = 5 + p * (45 - 5) / 100 ∧
       scaleRefProgress p = 50 + p * (90 - 50) / 100) ∧
      (5 ≤ scaleMixProgress p ∧ scaleMixProgress p ≤ 45) ∧
      (50 ≤ scaleRefProgress p ∧ scaleRefProgress p ≤ 90) ∧
      (p ≤ q → scaleMixProgress p ≤ scaleMixProgress q ∧
        scaleRefProgress p ≤ scaleRefProgress q)) ∧
    (∀ env pr, env.dirMix = Except.ok () → env.dirRef = Except.ok () →
      pr ∈ env.mixProgress →
      StemJobStatus.Separating (scaleMixProgress pr.progress) ("Mix: " ++ pr.stage)
        ∈ processStemWrites env) ∧
    (∀ env pr mixRes, env.dirMix = Except.ok () → env.dirRef = Except.ok () →
      env.mixResult = Except.ok (Except.ok mixRes) → pr ∈ env.refProgress →
      StemJobStatus.Separating (scaleRefProgress pr.progress) ("Reference: " ++ pr.stage)
        ∈ processStemWrites env) := by
  refine ⟨?_, ?_, ?_⟩
  · intro p q hp hq
    have key : ∀ r : Nat, r ≤ 100 → r * 40 / 100 ≤ 40 := by
      intro r hr
      calc r * 40 / 100 ≤ 4000 / 100 := Nat.div_le_div_right (by omega)
      _ = 40 := by norm_num
    have kp := key p hp
    have kq := key q hq
    have hltp : p * 40 / 100 < 256 := by omega
    have hltq : q * 40 / 100 < 256 := by omega
    have e1 : scaleMixProgress p = 5 + p * 40 / 100 := by
      unfold scaleMixProgress
      rw [Nat.mod_eq_of_lt hltp, Nat.mod_eq_of_lt (by omega)]
    have e2 : scaleRefProgress p = 50 + p * 40 / 100 := by
      unfold scaleRefProgress
      rw [Nat.mod_eq_of_lt hltp, Nat.mod_eq_of_lt (by omega)]
    have e3 : scaleMixProgress q = 5 + q * 40 / 100 := by
      unfold scaleMixProgress
      rw [Nat.mod_eq_of_lt hltq, Nat.mod_eq_of_lt (by omega)]
    have e4 : scaleRefProgress q = 50 + q * 40 / 100 := by
      unfold scaleRefProgress
      rw [Nat.mod_eq_of_lt hltq, Nat.mod_eq_of_lt (by omega)]
    refine ⟨⟨by rw [e1], by rw [e2]⟩, ⟨by rw [e1]; omega, by rw [e1]; omega⟩,
      ⟨by rw [e2]; omega, by rw [e2]; omega⟩, ?_⟩
    intro hpq
    have m : p * 40 / 100 ≤ q * 40 / 100 := Nat.div_le_div_right (by omega)
    exact ⟨by rw [e1, e3]; omega, by rw [e2, e4]; omega⟩
  · intro env pr hdm hdr hpr
    simp only [processStemWrites, hdm, hdr]
    simp only [List.cons_append, List.mem_cons, List.mem_append, List.mem_map]
    exact Or.inr (Or.inr (Or.inl ⟨pr, hpr, rfl⟩))
  · intro env pr mixRes hdm hdr hmr hpr
    simp only [processStemWrites, hdm, hdr, hmr]
    simp only [List.cons_append, List.mem_cons, List.mem_append, List.mem_map, or_assoc]
    exact Or.inr (Or.inr (Or.inr (Or.inr (Or.inl ⟨pr, hpr, rfl⟩))))

theorem claim_C5_witness :
    ((100 : Nat) ≤ 100) ∧
    scaleMixProgress 100 = 5 + 100 * (45 - 5) / 100 ∧ scaleMixProgress 100 = 45 ∧
    scaleRefProgress 100 = 90 ∧ scaleMixProgress 13 ≤ scaleMixProgress 99 :=
  ⟨by decide,
   ((claim_C5_rescaling.1 100 100 (by decide) (by decide)).1).1,
   by decide, by decide,
   ((claim_C5_rescaling.1 13 99 (by decide) (by decide)).2.2.2 (by decide)).1⟩

/-- C6: for every job identifier, a status stream's event sequence
contains at most one terminal (Completed/Failed) event, always last, with
nothing emitted after it; and the emitted states are non-decreasing in
stage ordinal whenever the sampled store history is (which it is: both
pipelines' write sequences are non-decreasing in stage ordinal). -/
theorem claim_C6_terminal_last_monotone :
    (∀ (serC : ComparisonResult → String) (samples : List (Option JobStatus))
        (pre : List (StreamEvent JobStatus)) (e : StreamEvent JobStatus) post,
      job_status_stream serC samples = pre ++ e :: post →
      StreamEvent.isTerminalEvent jobIsTerminal e = true → post = []) ∧
    (∀ (serR : StemAnalysisResult → String) (samples : List (Option StemJobStatus))
        (pre : List (StreamEvent StemJobStatus)) (e : StreamEvent StemJobStatus) post,
      stem_job_status_stream serR samples = pre ++ e :: post →
      StreamEvent.isTerminalEvent stemIsTerminal e = true → post = []) ∧
    (∀ (serC : ComparisonResult → String) (samples : List (Option JobStatus)),
      (samples.filterMap id).Pairwise (fun a b => jobOrdinal a ≤ jobOrdinal b) →
      ((job_status_stream serC samples).filterMap StreamEvent.stateOf).Pairwise
        (fun a b => jobOrdinal a ≤ jobOrdinal b)) ∧
    (∀ (serR : StemAnalysisResult → String) (samples : List (Option StemJobStatus)),
      (samples.filterMap id).Pairwise (fun a b => stemOrdinal a ≤ stemOrdinal b) →
      ((stem_job_status_stream serR samples).filterMap StreamEvent.stateOf).Pairwise
        (fun a b => stemOrdinal a ≤ stemOrdinal b)) ∧
    (∀ env, (processAnalysisWrites env).Pairwise
      (fun a b => jobOrdinal a ≤ jobOrdinal b)) ∧
    (∀ env, (processStemWrites env).Pairwise
      (fun a b => stemOrdinal a ≤ stemOrdinal b)) := by
  refine ⟨?_, ?_, ?_, ?_, processAnalysisWrites_pairwise, processStemWrites_pairwise⟩
  · intro serC samples pre e post h ht
    exact streamEvents_terminal_last _ _ samples "" pre e post h ht
  · intro serR samples pre e post h ht
    exact streamEvents_terminal_last _ _ samples "" pre e post h ht
  · intro serC samples hmono
    exact List.Pairwise.sublist (streamEvents_states_sublist _ _ samples "") hmono
  · intro serR samples hmono
    exact List.Pairwise.sublist (streamEvents_states_sublist _ _ samples "") hmono

theorem claim_C6_witness :
    (job_status_stream (fun _ => "") [some (JobStatus.Failed "x")]
        = [] ++ StreamEvent.state (JobStatus.Failed "x") :: []) ∧
    StreamEvent.isTerminalEvent jobIsTerminal
      (StreamEvent.state (JobStatus.Failed "x")) = true ∧
    ([] : List (StreamEvent JobStatus)) = [] :=
  ⟨by rfl, by rfl,
   claim_C6_terminal_last_monotone.1 (fun _ => "") [some (JobStatus.Failed "x")] []
     (StreamEvent.state (JobStatus.Failed "x")) [] (by rfl) (by rfl)⟩

/-- C7: status-stream de-duplication: an event is emitted at a sampling
point if and only if the sample's serialization differs from the last
emitted one; in particular two consecutive identical (non-terminal)
samples produce exactly one emitted event for the pair, not two. -/
theorem claim_C7_dedup :
    ∀ (serC : ComparisonResult → String) (s : JobStatus)
      (rest : List (Option JobStatus)) (last : String),
      (serializeJobStatus serC s = last →
        streamEvents (serializeJobStatus serC) jobIsTerminal (some s :: rest) last
          = if jobIsTerminal s then []
            else streamEvents (serializeJobStatus serC) jobIsTerminal rest last) ∧
      (serializeJobStatus serC s ≠ last →
        streamEvents (serializeJobStatus serC) jobIsTerminal (some s :: rest) last
          = StreamEvent.state s ::
              (if jobIsTerminal s then []
               else streamEvents (serializeJobStatus serC) jobIsTerminal rest
                 (serializeJobStatus serC s))) ∧
      (serializeJobStatus serC s ≠ last → jobIsTerminal s = false →
        streamEvents (serializeJobStatus serC) jobIsTerminal (some s :: some s :: rest) last
          = StreamEvent.state s ::
              streamEvents (serializeJobStatus serC) jobIsTerminal rest
                (serializeJobStatus serC s)) := by
  intro serC s rest last
  refine ⟨?_, ?_, ?_⟩
  · intro h
    simp [streamEvents, h]
  · intro h
    simp [streamEvents, h]
  · intro h ht
    simp [streamEvents, h, ht]

theorem claim_C7_witness :
    (serializeJobStatus (fun _ => "") JobStatus.Queued ≠ "x") ∧
    (jobIsTerminal JobStatus.Queued = false) ∧
    streamEvents (serializeJobStatus (fun _ => "")) jobIsTerminal
        [some JobStatus.Queued, some JobStatus.Queued] "x"
      = StreamEvent.state JobStatus.Queued ::
          streamEvents (serializeJobStatus (fun _ => "")) jobIsTerminal []
            (serializeJobStatus (fun _ => "") JobStatus.Queued) :=
  ⟨by decide, by rfl,
   (claim_C7_dedup (fun _ => "") JobStatus.Queued [] "x").2.2 (by decide) (by rfl)⟩

/-- C8: persistence is best-effort in pipeline A: whenever the analysis
stage and the report-generation stage both succeed, the job's final record
is `Completed metrics report` — the write sequence does not depend on the
persistence outcomes at all, so a persistence failure never yields a
`Failed` job. -/
theorem claim_C8_persistence_best_effort :
    (∀ st job_id env metrics ai_text,
      env.analysis = Except.ok metrics → env.ai = Except.ok ai_text →
      (process_analysis st job_id env).jobs job_id
        = some (JobStatus.Completed metrics ai_text)) ∧
    (∀ env env' : AnalysisEnv, env.analysis = env'.analysis → env.ai = env'.ai →
      processAnalysisWrites env = processAnalysisWrites env') := by
  constructor
  · intro st jid env m t h1 h2
    have hw : processAnalysisWrites env
        = [JobStatus.Processing "Running Essentia Analysis...",
           JobStatus.Processing "Consulting AI Expert..."] ++ [JobStatus.Completed m t] := by
      simp [processAnalysisWrites, h1, h2]
    show (applyJobWrites st jid (processAnalysisWrites env)).jobs jid = _
    rw [hw]
    exact applyJobWrites_append_last st jid _ _
  · intro env env' h1 h2
    simp only [processAnalysisWrites, h1, h2]

theorem claim_C8_witness :
    (envA0.analysis = Except.ok cr0) ∧ (envA0.ai = Except.ok "report") ∧
    envA0.mixVersionInsert = Except.error "db down" ∧
    (process_analysis emptyState "j" envA0).jobs "j"
      = some (JobStatus.Completed cr0 "report") :=
  ⟨rfl, rfl, rfl,
   claim_C8_persistence_best_effort.1 emptyState "j" envA0 cr0 "report" rfl rfl⟩

/-- C9 (counterexample): with both sub-invocations succeeding — the mix
one producing `vocals ↦ mix/vocals.wav` and the reference one producing
`vocals ↦ ref/vocals.wav` — the Completed payload contains only the mix
stems; no entry carries the reference stem's file, refuting the claim that
the payload contains the stems produced for both inputs (the code binds
the reference results to an unused `_ref_stems`). -/
theorem claim_C9_counterexample :
    (process_stem_separation emptyState "sid" envB0).stem_jobs "sid"
      = some (StemJobStatus.Completed
          ⟨[("vocals", ⟨"mix/vocals.wav", -14, 2000, 8000⟩)]⟩) ∧
    (∀ entry ∈ [("vocals", (⟨"mix/vocals.wav", -14, 2000, 8000⟩ : StemMetrics))],
      entry.2.file_path ≠ "ref/vocals.wav") := by
  refine ⟨by rfl, ?_⟩
  intro entry h
  rw [List.mem_singleton] at h
  subst h
  decide

/-- C9 (amended): when both of pipeline B's sequential sub-invocations
succeed, the post-processing stage builds the Terminal Success payload
from the mix sub-invocation's stems only — one entry per mix stem, keyed
by stem name and carrying that stem's file path; the reference
sub-invocation's stems are computed (its failure is still terminal for the
job) but are not included in the payload. -/
theorem claim_C9_aggregation :
    ∀ st stem_job_id env mixRes refRes,
      env.dirMix = Except.ok () → env.dirRef = Except.ok () →
      env.mixResult = Except.ok (Except.ok mixRes) →
      env.refResult = Except.ok (Except.ok refRes) →
      (process_stem_separation st stem_job_id env).stem_jobs stem_job_id
        = some (StemJobStatus.Completed
            ⟨(mixRes.stems.getD []).map
              (fun np => (np.1, ⟨np.2, -14, 2000, 8000⟩))⟩) := by
  intro st sid env mixRes refRes hdm hdr hmr hrr
  have hw : processStemWrites env
      = (StemJobStatus.Separating 0 "Initializing Demucs..." ::
         StemJobStatus.Separating 2 "Starting mix stem separation..." ::
         env.mixProgress.map (fun pr => StemJobStatus.Separating
           (scaleMixProgress pr.progress) ("Mix: " ++ pr.stage)) ++
         StemJobStatus.Separating 50 "Starting reference stem separation..." ::
         env.refProgress.map (fun pr => StemJobStatus.Separating
           (scaleRefProgress pr.progress) ("Reference: " ++ pr.stage)) ++
         [StemJobStatus.Analyzing "all stems"]) ++
        [StemJobStatus.Completed
          ⟨(mixRes.stems.getD []).map (fun np => (np.1, ⟨np.2, -14, 2000, 8000⟩))⟩] := by
    simp [processStemWrites, hdm, hdr, hmr, hrr]
  show (applyStemWrites st sid (processStemWrites env)).stem_jobs sid = _
  rw [hw]
  exact applyStemWrites_append_last st sid _ _

theorem claim_C9_witness :
    (envB0.dirMix = Except.ok ()) ∧ (envB0.mixResult
      = Except.ok (Except.ok ⟨true, some [("vocals", "mix/vocals.wav")], some 44100, none⟩)) ∧
    (process_stem_separation emptyState "sid2" envB0).stem_jobs "sid2"
      = some (StemJobStatus.Completed
          ⟨[("vocals", ⟨"mix/vocals.wav", -14, 2000, 8000⟩)]⟩) :=
  ⟨rfl, rfl,
   claim_C9_aggregation emptyState "sid2" envB0
     ⟨true, some [("vocals", "mix/vocals.wav")], some 44100, none⟩
     ⟨true, some [("vocals", "ref/vocals.wav")], some 44100, none⟩ rfl rfl rfl rfl⟩

/-- C10: whenever pipeline B reaches Terminal Success, every per-stem
metrics entry in the Completed payload carries the fixed constants
`integrated_lufs = -14.0`, `spectral_centroid = 2000.0`,
`spectral_rolloff = 8000.0`, independent of the audio content; only
`file_path` varies, coming from the mix separation's stem map. -/
theorem claim_C10_constant_metrics :
    ∀ st stem_job_id env res,
      (process_stem_separation st stem_job_id env).stem_jobs stem_job_id
        = some (StemJobStatus.Completed res) →
      ∀ entry ∈ res.stems,
        entry.2.integrated_lufs = -14 ∧ entry.2.spectral_centroid = 2000 ∧
        entry.2.spectral_rolloff = 8000 ∧
        (∃ mixRes, env.mixResult = Except.ok (Except.ok mixRes) ∧
          (entry.1, entry.2.file_path) ∈ mixRes.stems.getD []) := by
  intro st sid env res hlookup entry hmem
  obtain ⟨front, t, heq, _, _, hdisj⟩ := processStemWrites_cases env
  have h3 := applyStemWrites_append_last st sid front t
  rw [← heq] at h3
  have h4 : (applyStemWrites st sid (processStemWrites env)).stem_jobs sid
      = some (StemJobStatus.Completed res) := hlookup
  have h5 : t = StemJobStatus.Completed res := by
    have := h3.symm.trans h4
    injection this
  rcases hdisj with ⟨mixRes, refRes, _, _, hmr, _, htc⟩ | ⟨msg, htf⟩
  · rw [htc] at h5
    injection h5 with h6
    rw [← h6] at hmem
    simp only [List.mem_map] at hmem
    obtain ⟨np, hnp, hentry⟩ := hmem
    rw [← hentry]
    exact ⟨rfl, rfl, rfl, mixRes, hmr, hnp⟩
  · rw [htf] at h5
    exact absurd h5 (by simp)

theorem claim_C10_witness :
    ((process_stem_separation emptyState "sid3" envB0).stem_jobs "sid3"
        = some (StemJobStatus.Completed
            ⟨[("vocals", ⟨"mix/vocals.wav", -14, 2000, 8000⟩)]⟩)) ∧
    ((("vocals", (⟨"mix/vocals.wav", -14, 2000, 8000⟩ : StemMetrics)) : String × StemMetrics)
        ∈ (⟨[("vocals", ⟨"mix/vocals.wav", -14, 2000, 8000⟩)]⟩ : StemAnalysisResult).stems) ∧
    ((⟨"mix/vocals.wav", -14, 2000, 8000⟩ : StemMetrics).integrated_lufs = -14 ∧
     (⟨"mix/vocals.wav", -14, 2000, 8000⟩ : StemMetrics).spectral_centroid = 2000 ∧
     (⟨"mix/vocals.wav", -14, 2000, 8000⟩ : StemMetrics).spectral_rolloff = 8000 ∧
     (∃ mixRes, envB0.mixResult = Except.ok (Except.ok mixRes) ∧
       (("vocals" : String), "mix/vocals.wav") ∈ mixRes.stems.getD [])) :=
  ⟨by rfl, by simp,
   claim_C10_constant_metrics emptyState "sid3" envB0
     ⟨[("vocals", ⟨"mix/vocals.wav", -14, 2000, 8000⟩)]⟩ (by rfl)
     ("vocals", ⟨"mix/vocals.wav", -14, 2000, 8000⟩) (by simp)⟩

end MixAnalyzer
